import Mathlib

/-!
Verification of the BIAflows CellProfiler measurement wrapper
(`wrapper.py`).  The development embeds, at the level the wrapper
manipulates them, the column type inference, the pipeline patching done
by `parse_cellprofiler_parameters`, the CSV annotation loop of `main`,
the temp-directory setup, and the progress updates `main` emits.
-/

namespace Wrapper

/-- Characters stripped by Python's `int()` / `float()` conversions
(ASCII whitespace; the wrapper's cells are ASCII CSV text). -/
def isPySpace (c : Char) : Bool :=
  c = ' ' || c = '\t' || c = '\n' || c = '\r' || c = '\x0b' || c = '\x0c'

/-- Leading/trailing whitespace stripping performed by Python's number
conversions. -/
def pyStrip (cs : List Char) : List Char :=
  ((cs.dropWhile isPySpace).reverse.dropWhile isPySpace).reverse

/-- Drop one optional leading sign, as `int()` / `float()` accept. -/
def afterSign : List Char → List Char
  | '+' :: rest => rest
  | '-' :: rest => rest
  | cs => cs

/-- Consume the tail of a digit group: further digits, with single
underscores allowed between digits (Python numeric syntax).  Returns
the unconsumed remainder. -/
def digitTail : List Char → List Char
  | '_' :: c :: rest => if c.isDigit then digitTail rest else '_' :: c :: rest
  | c :: rest => if c.isDigit then digitTail rest else c :: rest
  | [] => []

/-- Consume one digit group (`[0-9](_?[0-9])*`); `none` when there is no
leading digit, otherwise `some` of the remainder after the group. -/
def digitGroup : List Char → Option (List Char)
  | c :: rest => if c.isDigit then some (digitTail rest) else none
  | [] => none

/-- Python `int(value)` succeeds: optional whitespace and sign around one
nonempty digit group and nothing else. -/
def pyIntParses (s : String) : Bool :=
  digitGroup (afterSign (pyStrip s.data)) == some []

/-- Numeric value of a signless digit group (underscores ignored). -/
def digitsVal (cs : List Char) : Nat :=
  cs.foldl (fun acc c => if c = '_' then acc else acc * 10 + (c.toNat - 48)) 0

/-- Python `int(value)`: `some` of the parsed integer, `none` on the
`ValueError` Python raises. -/
def pyParseInt (s : String) : Option Int :=
  if pyIntParses s then
    match pyStrip s.data with
    | '-' :: rest => some (-(digitsVal rest : Int))
    | '+' :: rest => some (digitsVal rest)
    | t => some (digitsVal t)
  else none

/-- Exponent part of a Python float literal (possibly absent); it must
consume the whole remainder. -/
def expPart : List Char → Bool
  | [] => true
  | 'e' :: rest => digitGroup (afterSign rest) == some []
  | 'E' :: rest => digitGroup (afterSign rest) == some []
  | _ => false

/-- Numeric (non-`inf`/`nan`) body of a Python float literal: digits
with an optional point and optional exponent, at least one mantissa
digit. -/
def pyFloatNumeric (cs : List Char) : Bool :=
  match digitGroup cs with
  | some rest =>
    match rest with
    | '.' :: rest2 =>
      match digitGroup rest2 with
      | some rest3 => expPart rest3
      | none => expPart rest2
    | _ => expPart rest
  | none =>
    match cs with
    | '.' :: rest2 =>
      match digitGroup rest2 with
      | some rest3 => expPart rest3
      | none => false
    | _ => false

/-- Python `float(value)` succeeds: optional whitespace and sign, then a
numeric literal or `inf`/`infinity`/`nan` case-insensitively. -/
def pyFloatParses (s : String) : Bool :=
  let t := afterSign (pyStrip s.data)
  let low := t.map Char.toLower
  low == "inf".data || low == "infinity".data || low == "nan".data || pyFloatNumeric t

/-- Python `value.lower() in ('true', 'false')` (ASCII lowering). -/
def isBoolStr (s : String) : Bool :=
  let low := s.data.map Char.toLower
  low == "true".data || low == "false".data

/-- The `for` loop of `infer_column_type`, carrying the three flags
`(is_float, is_int, is_bool)`: empty values are skipped, boolean
literals are skipped before the numeric checks (`continue`), and any
other value clears `is_bool` and votes on the `int`/`float` flags. -/
def inferLoop (isFloat isInt isBool : Bool) : List String → Bool × Bool × Bool
  | [] => (isFloat, isInt, isBool)
  | value :: rest =>
    if value = "" then inferLoop isFloat isInt isBool rest
    else if isBoolStr value then inferLoop isFloat isInt isBool rest
    else inferLoop (isFloat && pyFloatParses value) (isInt && pyIntParses value) false rest

/-- Function `infer_column_type` of `wrapper.py`: the final `is_bool` / `is_int`
/ `is_float` decision chain over the loop's flags. -/
def infer_column_type (values : List String) : Char :=
  match inferLoop true true true values with
  | (isFloat, isInt, isBool) =>
    if isBool then 'b'
    else if isInt then 'l'
    else if isFloat then 'd'
    else 's'

/-- The cells of a column that actually vote on the `int`/`float`
flags: the non-empty, non-boolean ones. -/
def nonBoolCells (values : List String) : List String :=
  values.filter (fun v => !(v == "") && !isBoolStr v)

/-- Does `key` occur as a contiguous substring of the list?  (The
matching relation of Python's `str.replace` and `in`.) -/
def occursIn (key : List Char) : List Char → Bool
  | [] => key.isEmpty
  | c :: rest => key.isPrefixOf (c :: rest) || occursIn key rest

/-- Python `value.replace(key, rep)` on character lists, as the wrapper
calls it with the nonempty mask keys: scan left to right, replacing each
non-overlapping occurrence of `key` by `rep`.  (For an empty `key` this
model is the identity; the wrapper never calls it that way.)  The `fuel`
argument makes the recursion structural; every step consumes at least
one character, so `fuel = s.length` suffices. -/
def replaceAllFuel (key rep : List Char) : Nat → List Char → List Char
  | _, [] => []
  | 0, s => s
  | fuel + 1, c :: rest =>
    if key ≠ [] ∧ key.isPrefixOf (c :: rest)
    then rep ++ replaceAllFuel key rep fuel (rest.drop (key.length - 1))
    else c :: replaceAllFuel key rep fuel rest

/-- Python `value.replace(key, rep)` on character lists. -/
def replaceAll (key rep s : List Char) : List Char :=
  replaceAllFuel key rep s.length s

/-- Python `value.replace(key, rep)` on strings. -/
def pyReplace (s key rep : String) : String :=
  String.mk (replaceAll key.data rep.data s.data)

/-- Join pieces with a separator; the inverse view of splitting a
string at the occurrences of a key. -/
def joinWith (sep : List Char) : List (List Char) → List Char
  | [] => []
  | [p] => p
  | p :: q :: rest => p ++ (sep ++ joinWith sep (q :: rest))

/-- Predicate: `parts` decomposes `joinWith key parts` at its non-overlapping,
left-to-right occurrences of `key`: no occurrence of `key` starts
strictly inside a piece (relative to the remainder of the string), and
the final piece contains no occurrence at all. -/
def goodSplit (key : List Char) : List (List Char) → Bool
  | [] => false
  | [p] => !occursIn key p
  | p :: q :: rest =>
    (List.range p.length).all
      (fun j => !key.isPrefixOf ((p ++ (key ++ joinWith key (q :: rest))).drop j)) &&
    goodSplit key (q :: rest)

/-- The mask keys of `wrapper.py`. -/
def NUCLEI_MASK_KEY : String := "_Nuclei_Mask"

def AGGREGATES_MASK_KEY : String := "_Aggregates_Mask"

def CELLS_MASK_KEY : String := "_Cells_Mask"

def NAMES_AND_TYPES_MODULE_INDEX : Nat := 2

/-- Table `MASK_INDICES`: setting index (the source's 1-based numbering for
that module) paired with the mask key expected there. -/
def MASK_INDICES : List (Nat × String) :=
  [(14, NUCLEI_MASK_KEY), (26, CELLS_MASK_KEY)]

/-- The job parameters the patcher reads (`bj.parameters`). -/
structure JobParameters where
  nuclei_mask_suffix : String
  cells_mask_suffix : String
  metric_channels : String
deriving DecidableEq

/-- Reading `getattr(bj.parameters, PARAMETER_SUFFIXES[mask_key])`:
`PARAMETER_SUFFIXES` sends the nuclei key to `nuclei_mask_suffix` and
the cells key to `cells_mask_suffix`. -/
def suffixFor (p : JobParameters) (key : String) : String :=
  if key = NUCLEI_MASK_KEY then p.nuclei_mask_suffix else p.cells_mask_suffix

/-- Reading `module.setting(i).get_value()` on a module modelled as the list of
its setting values, with the source's 1-based setting numbering. -/
def settingVal (m : List String) (i : Nat) : String := m.getD (i - 1) ""

/-- Writing `module.setting(i).set_value(v)`. -/
def setSetting (m : List String) (i : Nat) (v : String) : List String :=
  m.set (i - 1) v

/-- Lines 106–115 of `wrapper.py`: in the names-and-types module
(`pipeline.modules()[2]`), for each entry of `MASK_INDICES`, read the
setting, `replace` the mask key by the corresponding suffix parameter,
and write it back.  The pipeline is modelled as the list of its
modules, each the list of its setting values. -/
def patch_masks (p : JobParameters) (modules : List (List String)) : List (List String) :=
  let m := modules.getD NAMES_AND_TYPES_MODULE_INDEX []
  let m := MASK_INDICES.foldl
    (fun m ik => setSetting m ik.1 (pyReplace (settingVal m ik.1) ik.2 (suffixFor p ik.2))) m
  modules.set NAMES_AND_TYPES_MODULE_INDEX m

/-- Concrete pipeline used to witness C1: module 2 has 26 settings,
with the nuclei pattern at setting 14 and the cells pattern at 26. -/
def exampleModule : List String :=
  List.replicate 13 "x" ++ ["ImgA_Nuclei_Mask.tif"] ++ List.replicate 11 "y" ++
    ["ImgB_Cells_Mask.tif"]

def exampleModules : List (List String) := [["m0"], ["m1"], exampleModule, ["m3"]]

def exampleParams : JobParameters :=
  { nuclei_mask_suffix := "_nuc", cells_mask_suffix := "_cel", metric_channels := "1,2,3" }

def exampleParts14 : List (List Char) := ["ImgA".data, ".tif".data]

def exampleParts26 : List (List Char) := ["ImgB".data, ".tif".data]

/-- One configured channel of the channel-configuration module
(`pipeline.modules()[4]`): its `channel_choice` and its image-name
setting (`channel.settings[2]`), the two fields the wrapper writes. -/
structure Channel where
  channel_choice : Int
  image_name : String
deriving DecidableEq

/-- The channel `add_channel` appends (its fields are overwritten by
the wrapper before use). -/
def defaultChannel : Channel :=
  { channel_choice := 1, image_name := "Channel1" }

/-- The state read and written by the channel patch (lines 117–147):
module 4's channel-count setting (`setting(20)`), module 4's channel
list, and module 6's (`MeasureObjectIntensity`) `images_list`. -/
structure ChannelState where
  channelCount : Int
  channels : List Channel
  images_list : List String
deriving DecidableEq

/-- Split a character list at every comma (Python's `split(',')`:
`""` yields `[""]`, empty fields are kept). -/
def splitOnComma : List Char → List (List Char)
  | [] => [[]]
  | c :: rest =>
    match splitOnComma rest with
    | [] => [[]]
    | g :: gs => if c = ',' then [] :: g :: gs else (c :: g) :: gs

/-- Python `metric_channels.split(',')`. -/
def pySplitCommas (s : String) : List String :=
  (splitOnComma s.data).map String.mk

/-- Python `[int(ch) for ch in metric_channels.split(',')]`; `none` models the
`ValueError` when an entry does not parse. -/
def pyParseIntList (s : String) : Option (List Int) :=
  (pySplitCommas s).mapM pyParseInt

/-- The `for i, value in enumerate(metric_channels)` loop: set
`channels[i].channel_choice` to the value and `channels[i].settings[2]`
to `Channel<value>`, positionally; `none` models the `IndexError` when
`i` runs past the channel list. -/
def applyChannelValues : List Channel → List Int → Option (List Channel)
  | chs, [] => some chs
  | [], _ :: _ => none
  | _ :: chs, v :: vs =>
    (applyChannelValues chs vs).map
      (fun rest => Channel.mk v ("Channel" ++ toString v) :: rest)

/-- Lines 117–147 of `wrapper.py`: skip everything when
`metric_channels` equals the default `'1,2,3'`; otherwise parse the
list, grow the channel list with `add_channel` (which appends a default
channel and bumps the count setting) or shrink it by repeatedly
removing the (identity-unique) last element — which bypasses the count
setting — until its length matches, overwrite each channel positionally
and set module 6's `images_list` to the derived names.  `none` models
an uncaught Python exception. -/
def patch_channels (metric : String) (st : ChannelState) : Option ChannelState :=
  if metric = "1,2,3" then some st
  else
    match pyParseIntList metric with
    | none => none
    | some metric_channels =>
      let num : Int := metric_channels.length
      let cur : Int := st.channelCount
      let resized : Option (List Channel × Int) :=
        if cur < num then
          some (st.channels ++ List.replicate (num - cur).toNat defaultChannel, num)
        else if num < cur then
          if (cur - num).toNat ≤ st.channels.length then
            some (st.channels.take (st.channels.length - (cur - num).toNat), cur)
          else none
        else some (st.channels, cur)
      match resized with
      | none => none
      | some pair =>
        match applyChannelValues pair.1 metric_channels with
        | none => none
        | some newChs =>
          some { channelCount := pair.2, channels := newChs,
                 images_list := metric_channels.map (fun v => "Channel" ++ toString v) }

/-- Concrete channel state used to witness C2: three configured
channels, the request `"2,4"` shrinks to two. -/
def exampleChannelState : ChannelState :=
  { channelCount := 3,
    channels := [defaultChannel, defaultChannel, defaultChannel],
    images_list := ["Channel1", "Channel2", "Channel3"] }

/-- The number of columns `zip(*rows)` keeps: the length of the
shortest row. -/
def minRowWidth : List (List String) → Nat
  | [] => 0
  | r :: rs => rs.foldl (fun acc row => min acc row.length) r.length

/-- Python `list(zip(*rows))`: the transpose truncated to the shortest row;
`zip()` of no arguments at all is empty. -/
def pyZip (rows : List (List String)) : List (List String) :=
  match rows with
  | [] => []
  | r :: rs =>
    (List.range (minRowWidth (r :: rs))).map
      (fun i => (r :: rs).map (fun row => row.getD i ""))

/-- Lines 234–267 of `wrapper.py` for one CSV file, at the level of its
parsed rows: skip the header, sample up to ten data rows, infer one tag
per zipped column, prefix the first tag with the literal `# header `
marker, and write the tag row followed by every original row (the
original file is re-read in full).  `none` models an uncaught Python
exception: `StopIteration` when the file has no rows at all, and the
`IndexError` from `type_hints[0]` when there are no tags (no data rows,
or a sampled row with no cells). -/
def annotate_rows (rows : List (List String)) : Option (List (List String)) :=
  match rows with
  | [] => none
  | _header :: data =>
    let data_samples := data.take 10
    let transposed := pyZip data_samples
    let type_hints := transposed.map (fun col => String.mk [infer_column_type col])
    match type_hints with
    | [] => none
    | t0 :: ts => some ((("# header " ++ t0) :: ts) :: rows)

/-- A file system for the CSV rewrite of lines 254–267: newest-first
association of path to file content, a file's content being its list of
rows. -/
abbrev FileSys := List (String × List (List String))

def fsLookup (fs : FileSys) (p : String) : Option (List (List String)) :=
  match fs with
  | [] => none
  | (q, c) :: rest => if q = p then some c else fsLookup rest p

def fsSet (fs : FileSys) (p : String) (c : List (List String)) : FileSys :=
  (p, c) :: fs

def fsRemove (fs : FileSys) (p : String) : FileSys :=
  fs.filter (fun e => e.1 != p)

/-- The file-system operations the rewrite performs. -/
inductive FsOp where
  | create (path : String)
  | appendRow (path : String) (row : List String)
  | replaceFile (src dst : String)
deriving DecidableEq

/-- Effect of one operation: `create` is `open(path, 'w')` (create or
truncate), `appendRow` is one `writer.writerow`, `replaceFile` is the
atomic `os.replace(src, dst)`.  A missing file in `appendRow` or
`replaceFile` leaves the state unchanged; Python would raise there, and
the rewrite sequences considered never reach that case. -/
def applyOp (fs : FileSys) : FsOp → FileSys
  | .create p => fsSet fs p []
  | .appendRow p r =>
    match fsLookup fs p with
    | some c => fsSet fs p (c ++ [r])
    | none => fs
  | .replaceFile src dst =>
    match fsLookup fs src with
    | some c => fsSet (fsRemove fs src) dst c
    | none => fs

def applyOps (fs : FileSys) (ops : List FsOp) : FileSys :=
  ops.foldl applyOp fs

/-- The rewrite of one result file (lines 254–267): build the whole
annotated content, row by row, in `path + '.temp'`, then
`os.replace` it over `path`. -/
def rewriteOps (path : String) (newRows : List (List String)) : List FsOp :=
  FsOp.create (path ++ ".temp") ::
    (newRows.map (FsOp.appendRow (path ++ ".temp")) ++
      [FsOp.replaceFile (path ++ ".temp") path])

/-- The paths whose binding an operation can change. -/
def opTargets : FsOp → List String
  | .create p => [p]
  | .appendRow p _ => [p]
  | .replaceFile src dst => [src, dst]

/-- Concrete rewrite used to witness C8. -/
def exampleFS : FileSys := [("out.csv", [["h"], ["1"]])]

def exampleNewRows : List (List String) := [["# header l"], ["h"], ["1"]]

inductive OsError where
  | fileExists
  | fileNotFound
deriving DecidableEq

/-- Python `os.mkdir`: raises `FileExistsError` when the directory already
exists and `FileNotFoundError` when its parent does not.  Paths are
segment lists; the wrapper only ever appends slash-free timestamp
components, so `tmp_path += "/" + str(ts)` is segment append. -/
def mkdirFs (dirs : List (List String)) (p : List String) :
    Except OsError (List (List String)) :=
  if p ∈ dirs then .error .fileExists
  else if p.dropLast ∈ dirs then .ok (p :: dirs)
  else .error .fileNotFound

/-- Lines 180–187 of `wrapper.py`: extend `tmp_path` with the first
timestamp and `mkdir` it; on `FileExistsError` extend the already
extended path once more with the second timestamp and `mkdir` again,
catching nothing the second time.  Returns the directory set and the
final `tmp_path`. -/
def setup_tmp_path (dirs : List (List String)) (base : List String)
    (ts1 ts2 : Nat) : Except OsError (List (List String) × List String) :=
  match mkdirFs dirs (base ++ [toString ts1]) with
  | .ok dirs2 => .ok (dirs2, base ++ [toString ts1])
  | .error .fileExists =>
    match mkdirFs dirs (base ++ [toString ts1] ++ [toString ts2]) with
    | .ok dirs2 => .ok (dirs2, base ++ [toString ts1] ++ [toString ts2])
    | .error e => .error e
  | .error e => .error e

/-- The observable behaviour of `main` (lines 173–277) towards the job
tracker, as a function of the engine's return code and the parsed
result tables: the progress values sent, in order, and whether an
exception propagates.  `main` sends `progress=0` at initialisation and
`progress=25` before launching; a non-zero return code sends
`progress=50` and raises `ValueError`; otherwise the annotation loop
runs (sending nothing; an uncaught annotation exception aborts the run
before the final update) and `progress=100` is sent at termination. -/
def main_progress (returncode : Int) (csv_tables : List (List (List String))) :
    List Nat × Bool :=
  if returncode ≠ 0 then ([0, 25, 50], true)
  else if csv_tables.all (fun t => (annotate_rows t).isSome) then ([0, 25, 100], false)
  else ([0, 25], true)

/-- A result table whose annotation succeeds. -/
def exampleTables : List (List (List String)) := [[["h"], ["1"]]]

theorem inferLoop_eq (values : List String) (f i b : Bool) :
    inferLoop f i b values =
      (f && values.all (fun v => v == "" || isBoolStr v || pyFloatParses v),
       i && values.all (fun v => v == "" || isBoolStr v || pyIntParses v),
       b && values.all (fun v => v == "" || isBoolStr v)) := by
  induction values generalizing f i b with
  | nil => simp [inferLoop]
  | cons v rest ih =>
    by_cases hv : v = ""
    · simp [inferLoop, hv, ih, Bool.and_assoc]
    · by_cases hb : isBoolStr v
      · simp [inferLoop, hv, hb, ih, Bool.and_assoc]
      · have hv' : (v == "") = false := beq_eq_false_iff_ne.mpr hv
        simp [inferLoop, hv, hb, ih, hv', Bool.and_assoc]

theorem all_filter_of_imp (p q : String → Bool) (values : List String)
    (h : ∀ v, q v = false → p v = true) :
    (values.filter q).all p = values.all p := by
  induction values with
  | nil => rfl
  | cons v rest ih =>
    by_cases hq : q v = true
    · simp [List.filter_cons, hq, List.all_cons, ih]
    · have hq' : q v = false := Bool.eq_false_iff.mpr hq
      simp [List.filter_cons, hq', List.all_cons, ih, h v hq']

/-- C3, as stated, is false on the code: in `["true", "1"]` not every
non-empty value parses as an integer (and not every one is boolean), yet
the inferred tag is `'l'`, because the boolean literal is skipped before
the integer vote. -/
theorem C3_counterexample :
    infer_column_type ["true", "1"] = 'l' ∧
    ¬(∀ v ∈ (["true", "1"] : List String), v ≠ "" → pyIntParses v = true) ∧
    ¬(∀ v ∈ (["true", "1"] : List String), v ≠ "" → isBoolStr v = true) := by
  refine ⟨by decide, ?_, ?_⟩
  · intro h
    have := h "true" (by decide) (by decide)
    exact absurd this (by decide)
  · intro h
    have := h "1" (by decide) (by decide)
    exact absurd this (by decide)

/-- C3 (amended): the inferred tag follows the strict precedence
bool > long > double > string, where empty cells are skipped entirely
and boolean-literal cells are additionally skipped in the integer and
float votes: `'b'` iff every non-empty value is a boolean literal;
otherwise `'l'` iff every non-empty non-boolean value parses as an
integer; otherwise `'d'` iff every non-empty non-boolean value parses
as a float; otherwise `'s'`. -/
theorem C3_inference_precedence (values : List String) :
    infer_column_type values =
      (if values.all (fun v => v == "" || isBoolStr v) then 'b'
       else if values.all (fun v => v == "" || isBoolStr v || pyIntParses v) then 'l'
       else if values.all (fun v => v == "" || isBoolStr v || pyFloatParses v) then 'd'
       else 's') := by
  unfold infer_column_type
  rw [inferLoop_eq]
  simp

/-- C4: values that look like booleans (and empty cells) never
contribute to the integer/float votes, so whenever the column has at
least one non-empty non-boolean value, the result only depends on those
values; in particular `["true", "1"]` is inferred as `'l'`. -/
theorem C4_bool_values_skipped (values : List String)
    (h : ∃ v ∈ values, v ≠ "" ∧ isBoolStr v = false) :
    infer_column_type values = infer_column_type (nonBoolCells values) ∧
    infer_column_type ["true", "1"] = 'l' := by
  refine ⟨?_, by decide⟩
  obtain ⟨v, hv, hne, hnb⟩ := h
  have hvq : (!(v == "") && !isBoolStr v) = true := by
    simp [beq_eq_false_iff_ne.mpr hne, hnb]
  have hmem : v ∈ nonBoolCells values := List.mem_filter.mpr ⟨hv, hvq⟩
  have hBfalse : ∀ l : List String, v ∈ l →
      l.all (fun v => v == "" || isBoolStr v) = false := by
    intro l hl
    apply Bool.eq_false_iff.mpr
    intro hall
    have := List.all_eq_true.mp hall v hl
    simp [beq_eq_false_iff_ne.mpr hne, hnb] at this
  have hside : ∀ (r : String → Bool) (w : String),
      (!(w == "") && !isBoolStr w) = false →
      (w == "" || isBoolStr w || r w) = true := by
    intro r w hw
    cases h1 : (w == "") <;> cases h2 : isBoolStr w <;> simp_all
  unfold infer_column_type
  rw [inferLoop_eq, inferLoop_eq]
  rw [hBfalse values hv, hBfalse (nonBoolCells values) hmem]
  unfold nonBoolCells
  rw [all_filter_of_imp _ _ _ (hside pyIntParses),
    all_filter_of_imp _ _ _ (hside pyFloatParses)]

/-- Witness for C4 at the concrete column `["true", "1"]`, whose
non-boolean non-empty cells are exactly `["1"]`. -/
theorem C4_bool_values_skipped_witness :
    (∃ v ∈ (["true", "1"] : List String), v ≠ "" ∧ isBoolStr v = false) ∧
    (infer_column_type ["true", "1"] = infer_column_type (nonBoolCells ["true", "1"]) ∧
     infer_column_type ["true", "1"] = 'l') :=
  ⟨⟨"1", by decide, by decide, by decide⟩,
   C4_bool_values_skipped ["true", "1"] ⟨"1", by decide, by decide, by decide⟩⟩

/-- C7: the documented sample vectors map to the documented tags,
including the vacuous boundary cases. -/
theorem C7_examples :
    infer_column_type ["1", "2", "3"] = 'l' ∧
    infer_column_type ["1.5", "2.0", "abc"] = 's' ∧
    infer_column_type ["true", "False", ""] = 'b' ∧
    infer_column_type [] = 'b' ∧
    infer_column_type ["", "", ""] = 'b' := by
  refine ⟨by decide, by decide, by decide, by decide, by decide⟩

theorem replaceAllFuel_congr (key rep : List Char) :
    ∀ (f f' : Nat) (s : List Char), s.length ≤ f → s.length ≤ f' →
      replaceAllFuel key rep f s = replaceAllFuel key rep f' s := by
  intro f
  induction f with
  | zero =>
    intro f' s hf _
    have hs : s = [] := List.length_eq_zero.mp (Nat.le_zero.mp hf)
    subst hs
    cases f' <;> rfl
  | succ f ihf =>
    intro f' s hf hf'
    cases s with
    | nil => cases f' <;> rfl
    | cons c rest =>
      cases f' with
      | zero => simp at hf'
      | succ f'' =>
        simp only [List.length_cons] at hf hf'
        simp only [replaceAllFuel]
        by_cases hcond : key ≠ [] ∧ key.isPrefixOf (c :: rest) = true
        · rw [if_pos hcond, if_pos hcond]
          congr 1
          apply ihf <;> (rw [List.length_drop]; omega)
        · rw [if_neg hcond, if_neg hcond]
          congr 1
          apply ihf <;> omega

theorem replaceAll_cons (key rep : List Char) (c : Char) (rest : List Char) :
    replaceAll key rep (c :: rest) =
      if key ≠ [] ∧ key.isPrefixOf (c :: rest)
      then rep ++ replaceAll key rep (rest.drop (key.length - 1))
      else c :: replaceAll key rep rest := by
  show replaceAllFuel key rep (c :: rest).length (c :: rest) = _
  simp only [List.length_cons, replaceAllFuel]
  by_cases hcond : key ≠ [] ∧ key.isPrefixOf (c :: rest) = true
  · rw [if_pos hcond, if_pos hcond]
    congr 1
    exact replaceAllFuel_congr key rep rest.length (rest.drop (key.length - 1)).length _
      (by rw [List.length_drop]; omega) (Nat.le_refl _)
  · rw [if_neg hcond, if_neg hcond]
    rfl

theorem replaceAll_of_not_occursIn (key rep s : List Char)
    (h : occursIn key s = false) : replaceAll key rep s = s := by
  induction s with
  | nil => rfl
  | cons c rest ih =>
    rw [occursIn] at h
    obtain ⟨h1, h2⟩ : key.isPrefixOf (c :: rest) = false ∧ occursIn key rest = false := by
      simpa using h
    rw [replaceAll_cons, if_neg, ih h2]
    rintro ⟨-, hp⟩
    simp [h1] at hp

theorem replaceAll_through (key rep T : List Char) (hk : key ≠ [])
    (p : List Char)
    (hA : ∀ j, j < p.length → key.isPrefixOf ((p ++ (key ++ T)).drop j) = false) :
    replaceAll key rep (p ++ (key ++ T)) = p ++ (rep ++ replaceAll key rep T) := by
  induction p with
  | nil =>
    simp only [List.nil_append]
    obtain ⟨k0, ktail, rfl⟩ : ∃ k0 ktail, key = k0 :: ktail := by
      cases key with
      | nil => exact absurd rfl hk
      | cons a b => exact ⟨a, b, rfl⟩
    rw [List.cons_append, replaceAll_cons, if_pos ?hc]
    case hc =>
      refine ⟨hk, ?_⟩
      rw [← List.cons_append]
      exact List.isPrefixOf_iff_prefix.mpr (List.prefix_append _ _)
    have hdrop : (ktail ++ T).drop ((k0 :: ktail).length - 1) = T := by
      simp only [List.length_cons, Nat.add_sub_cancel]
      exact List.drop_left ktail T
    rw [hdrop]
  | cons c p ih =>
    rw [List.cons_append, replaceAll_cons, if_neg ?hc]
    case hc =>
      rintro ⟨-, hp⟩
      have h0 := hA 0 (by simp)
      rw [List.cons_append, List.drop_zero] at h0
      simp [h0] at hp
    rw [List.cons_append]
    congr 1
    refine ih ?_
    intro j hj
    have := hA (j + 1) (by simpa using Nat.succ_lt_succ hj)
    rwa [List.cons_append, List.drop_succ_cons] at this

theorem replaceAll_joinWith (key rep : List Char) (hk : key ≠ [])
    (parts : List (List Char)) (hg : goodSplit key parts = true) :
    replaceAll key rep (joinWith key parts) = joinWith rep parts := by
  induction parts with
  | nil => simp [goodSplit] at hg
  | cons p rest ih =>
    cases rest with
    | nil =>
      have hocc : occursIn key p = false := by simpa [goodSplit] using hg
      simpa [joinWith] using replaceAll_of_not_occursIn key rep p hocc
    | cons q rest' =>
      rw [goodSplit, Bool.and_eq_true] at hg
      obtain ⟨hgA, hrest⟩ := hg
      have hA : ∀ j, j < p.length →
          key.isPrefixOf ((p ++ (key ++ joinWith key (q :: rest'))).drop j) = false := by
        intro j hj
        have := List.all_eq_true.mp hgA j (List.mem_range.mpr hj)
        simpa using this
      rw [joinWith, replaceAll_through key rep _ hk p hA, ih hrest, joinWith]

theorem getD_set_ne {α : Type _} (l : List α) (i j : Nat) (x d : α) (h : i ≠ j) :
    (l.set i x).getD j d = l.getD j d := by
  induction l generalizing i j with
  | nil => rfl
  | cons a t ih =>
    cases i with
    | zero =>
      cases j with
      | zero => exact absurd rfl h
      | succ j' => simp
    | succ i' =>
      cases j with
      | zero => simp
      | succ j' =>
        simp only [List.set_cons_succ, List.getD_cons_succ]
        exact ih i' j' (fun hh => h (by rw [hh]))

theorem getD_set_self {α : Type _} (l : List α) (i : Nat) (x d : α) :
    (l.set i x).getD i d = if i < l.length then x else d := by
  induction l generalizing i with
  | nil => simp
  | cons a t ih =>
    cases i with
    | zero => simp
    | succ i' =>
      simp only [List.set_cons_succ, List.getD_cons_succ, List.length_cons]
      rw [ih i']
      by_cases hlt : i' < t.length
      · rw [if_pos hlt, if_pos (by omega)]
      · rw [if_neg hlt, if_neg (by omega)]

theorem getD_of_length_le {α : Type _} (l : List α) (n : Nat) (d : α)
    (h : l.length ≤ n) : l.getD n d = d := by
  induction l generalizing n with
  | nil => simp
  | cons a t ih =>
    cases n with
    | zero => simp at h
    | succ n' =>
      simp only [List.getD_cons_succ]
      exact ih n' (by simpa using h)

theorem lt_length_of_getD_ne {α : Type _} (l : List α) (n : Nat) (d : α)
    (h : l.getD n d ≠ d) : n < l.length := by
  by_contra hn
  exact h (getD_of_length_le l n d (by omega))

theorem joinWith_ne_nil (sep : List Char) (hsep : sep ≠ [])
    (parts : List (List Char)) (h2 : 2 ≤ parts.length) :
    joinWith sep parts ≠ [] := by
  cases parts with
  | nil => simp at h2
  | cons p rest =>
    cases rest with
    | nil => simp at h2
    | cons q rest' =>
      rw [joinWith]
      intro hc
      obtain ⟨-, hc2⟩ := List.append_eq_nil.mp hc
      exact hsep (List.append_eq_nil.mp hc2).1

theorem pyReplace_data (s key rep : String) :
    (pyReplace s key rep).data = replaceAll key.data rep.data s.data := rfl

theorem pyReplace_of_not_occursIn (s key rep : String)
    (h : occursIn key.data s.data = false) : pyReplace s key rep = s := by
  unfold pyReplace
  rw [replaceAll_of_not_occursIn _ _ _ h]

theorem settingVal_setSetting_ne (m : List String) (i j : Nat) (v : String)
    (h : i - 1 ≠ j - 1) : settingVal (setSetting m i v) j = settingVal m j :=
  getD_set_ne m (i - 1) (j - 1) v "" h

theorem settingVal_setSetting_self (m : List String) (i : Nat) (v : String) :
    settingVal (setSetting m i v) i = if i - 1 < m.length then v else "" :=
  getD_set_self m (i - 1) v ""

theorem setSetting_length (m : List String) (i : Nat) (v : String) :
    (setSetting m i v).length = m.length := List.length_set m (i - 1) v

theorem settingVal_ne_imp_lt (m : List String) (i : Nat)
    (h : settingVal m i ≠ "") : i - 1 < m.length :=
  lt_length_of_getD_ne m (i - 1) "" h

theorem patch_masks_unfold (p : JobParameters) (modules : List (List String)) :
    patch_masks p modules =
      modules.set 2
        (setSetting
          (setSetting (modules.getD 2 []) 14
            (pyReplace (settingVal (modules.getD 2 []) 14) NUCLEI_MASK_KEY p.nuclei_mask_suffix))
          26
          (pyReplace
            (settingVal
              (setSetting (modules.getD 2 []) 14
                (pyReplace (settingVal (modules.getD 2 []) 14) NUCLEI_MASK_KEY p.nuclei_mask_suffix))
              26)
            CELLS_MASK_KEY p.cells_mask_suffix)) := rfl

theorem patch_masks_eq (p : JobParameters) (modules : List (List String)) :
    patch_masks p modules =
      modules.set 2
        (setSetting
          (setSetting (modules.getD 2 []) 14
            (pyReplace (settingVal (modules.getD 2 []) 14) NUCLEI_MASK_KEY p.nuclei_mask_suffix))
          26
          (pyReplace (settingVal (modules.getD 2 []) 26)
            CELLS_MASK_KEY p.cells_mask_suffix)) := by
  rw [patch_masks_unfold, settingVal_setSetting_ne _ 14 26 _ (by omega)]

/-- C1: on any pipeline whose names-and-types module holds, at setting
indices 14 and 26, values decomposing at the occurrences of the nuclei
resp. cells mask key, the patcher replaces exactly those occurrences by
the corresponding suffix parameter (the pieces between occurrences are
kept verbatim), keeps every other setting of that module and every
other module identical; and when a value does not contain its key, that
value is left unchanged (silent no-op). -/
theorem C1_mask_patch :
    (∀ (p : JobParameters) (modules : List (List String))
       (parts14 parts26 : List (List Char)),
       2 ≤ parts14.length → 2 ≤ parts26.length →
       goodSplit NUCLEI_MASK_KEY.data parts14 = true →
       goodSplit CELLS_MASK_KEY.data parts26 = true →
       (settingVal (modules.getD 2 []) 14).data = joinWith NUCLEI_MASK_KEY.data parts14 →
       (settingVal (modules.getD 2 []) 26).data = joinWith CELLS_MASK_KEY.data parts26 →
       (patch_masks p modules).length = modules.length ∧
       (∀ j, j ≠ 2 → (patch_masks p modules).getD j [] = modules.getD j []) ∧
       (∀ i, i ≠ 14 → i ≠ 26 →
         settingVal ((patch_masks p modules).getD 2 []) i =
           settingVal (modules.getD 2 []) i) ∧
       (settingVal ((patch_masks p modules).getD 2 []) 14).data =
         joinWith p.nuclei_mask_suffix.data parts14 ∧
       (settingVal ((patch_masks p modules).getD 2 []) 26).data =
         joinWith p.cells_mask_suffix.data parts26) ∧
    (∀ (p : JobParameters) (modules : List (List String)),
       occursIn NUCLEI_MASK_KEY.data (settingVal (modules.getD 2 []) 14).data = false →
       settingVal ((patch_masks p modules).getD 2 []) 14 =
         settingVal (modules.getD 2 []) 14) ∧
    (∀ (p : JobParameters) (modules : List (List String)),
       occursIn CELLS_MASK_KEY.data (settingVal (modules.getD 2 []) 26).data = false →
       settingVal ((patch_masks p modules).getD 2 []) 26 =
         settingVal (modules.getD 2 []) 26) := by
  refine ⟨?main, ?noop14, ?noop26⟩
  case main =>
    intro p modules parts14 parts26 h14 h26 hg14 hg26 hv14 hv26
    have hkey14 : NUCLEI_MASK_KEY.data ≠ [] := by decide
    have hkey26 : CELLS_MASK_KEY.data ≠ [] := by decide
    have hne14 : settingVal (modules.getD 2 []) 14 ≠ "" := by
      intro h
      have hj : joinWith NUCLEI_MASK_KEY.data parts14 = [] := by
        rw [← hv14, h]
      exact joinWith_ne_nil _ hkey14 _ h14 hj
    have hne26 : settingVal (modules.getD 2 []) 26 ≠ "" := by
      intro h
      have hj : joinWith CELLS_MASK_KEY.data parts26 = [] := by
        rw [← hv26, h]
      exact joinWith_ne_nil _ hkey26 _ h26 hj
    have hlt13 : 14 - 1 < (modules.getD 2 []).length := settingVal_ne_imp_lt _ _ hne14
    have hlt25 : 26 - 1 < (modules.getD 2 []).length := settingVal_ne_imp_lt _ _ hne26
    have hmne : modules.getD 2 [] ≠ [] := by
      intro h
      rw [h] at hlt25
      simp at hlt25
    have hlt2 : 2 < modules.length := by
      by_contra hc
      exact hmne (getD_of_length_le modules 2 [] (by omega))
    refine ⟨?_, ?_, ?_, ?_, ?_⟩
    · rw [patch_masks_eq]
      simp
    · intro j hj
      rw [patch_masks_eq]
      exact getD_set_ne modules 2 j _ [] (Ne.symm hj)
    · intro i hi14 hi26
      rw [patch_masks_eq, getD_set_self, if_pos hlt2,
        settingVal_setSetting_ne _ 26 i _ (by omega),
        settingVal_setSetting_ne _ 14 i _ (by omega)]
    · rw [patch_masks_eq, getD_set_self, if_pos hlt2,
        settingVal_setSetting_ne _ 26 14 _ (by omega),
        settingVal_setSetting_self, if_pos hlt13, pyReplace_data, hv14]
      exact replaceAll_joinWith _ _ hkey14 _ hg14
    · rw [patch_masks_eq, getD_set_self, if_pos hlt2,
        settingVal_setSetting_self, setSetting_length, if_pos hlt25,
        pyReplace_data, hv26]
      exact replaceAll_joinWith _ _ hkey26 _ hg26
  case noop14 =>
    intro p modules hocc
    by_cases hlt2 : 2 < modules.length
    · rw [patch_masks_eq, getD_set_self, if_pos hlt2,
        settingVal_setSetting_ne _ 26 14 _ (by omega),
        settingVal_setSetting_self, pyReplace_of_not_occursIn _ _ _ hocc]
      by_cases h13 : 14 - 1 < (modules.getD 2 []).length
      · rw [if_pos h13]
      · rw [if_neg h13]
        exact (getD_of_length_le (modules.getD 2 []) (14 - 1) "" (by omega)).symm
    · rw [patch_masks_eq, List.set_eq_of_length_le (by omega)]
  case noop26 =>
    intro p modules hocc
    by_cases hlt2 : 2 < modules.length
    · rw [patch_masks_eq, getD_set_self, if_pos hlt2,
        settingVal_setSetting_self, setSetting_length,
        pyReplace_of_not_occursIn _ _ _ hocc]
      by_cases h25 : 26 - 1 < (modules.getD 2 []).length
      · rw [if_pos h25]
      · rw [if_neg h25]
        exact (getD_of_length_le (modules.getD 2 []) (26 - 1) "" (by omega)).symm
    · rw [patch_masks_eq, List.set_eq_of_length_le (by omega)]

/-- Witness for C1 on the concrete example pipeline. -/
theorem C1_mask_patch_witness :
    (2 ≤ exampleParts14.length ∧ 2 ≤ exampleParts26.length ∧
     goodSplit NUCLEI_MASK_KEY.data exampleParts14 = true ∧
     goodSplit CELLS_MASK_KEY.data exampleParts26 = true ∧
     (settingVal (exampleModules.getD 2 []) 14).data =
       joinWith NUCLEI_MASK_KEY.data exampleParts14 ∧
     (settingVal (exampleModules.getD 2 []) 26).data =
       joinWith CELLS_MASK_KEY.data exampleParts26) ∧
    ((patch_masks exampleParams exampleModules).length = exampleModules.length ∧
     (∀ j, j ≠ 2 →
       (patch_masks exampleParams exampleModules).getD j [] = exampleModules.getD j []) ∧
     (∀ i, i ≠ 14 → i ≠ 26 →
       settingVal ((patch_masks exampleParams exampleModules).getD 2 []) i =
         settingVal (exampleModules.getD 2 []) i) ∧
     (settingVal ((patch_masks exampleParams exampleModules).getD 2 []) 14).data =
       joinWith exampleParams.nuclei_mask_suffix.data exampleParts14 ∧
     (settingVal ((patch_masks exampleParams exampleModules).getD 2 []) 26).data =
       joinWith exampleParams.cells_mask_suffix.data exampleParts26) :=
  ⟨⟨by decide, by decide, by decide, by decide, by decide, by decide⟩,
   C1_mask_patch.1 exampleParams exampleModules exampleParts14 exampleParts26
     (by decide) (by decide) (by decide) (by decide) (by decide) (by decide)⟩

theorem applyChannelValues_of_le (vals : List Int) (chs : List Channel)
    (h : vals.length ≤ chs.length) :
    applyChannelValues chs vals =
      some (vals.map (fun v => Channel.mk v ("Channel" ++ toString v)) ++
        chs.drop vals.length) := by
  induction vals generalizing chs with
  | nil => simp [applyChannelValues]
  | cons v vs ih =>
    cases chs with
    | nil => simp at h
    | cons c rest =>
      simp only [applyChannelValues]
      rw [ih rest (by simpa using h)]
      simp

/-- C2: for a channel parameter different from the default `'1,2,3'`
that parses as `n` integers (and with module 4's count setting agreeing
with its channel list, as CellProfiler maintains), patching succeeds,
the resulting channel list has exactly `n` entries whose choices are
the requested integers with derived names `Channel<id>` in order, and
module 6's image list is exactly those names in order; for the default
parameter nothing is modified. -/
theorem C2_channel_patch :
    (∀ (metric : String) (st : ChannelState) (ms : List Int),
       metric ≠ "1,2,3" →
       pyParseIntList metric = some ms →
       st.channelCount = (st.channels.length : Int) →
       ∃ st' : ChannelState,
         patch_channels metric st = some st' ∧
         st'.channels.length = ms.length ∧
         st'.channels = ms.map (fun v => Channel.mk v ("Channel" ++ toString v)) ∧
         st'.images_list = ms.map (fun v => "Channel" ++ toString v)) ∧
    (∀ st : ChannelState, patch_channels "1,2,3" st = some st) := by
  constructor
  · intro metric st ms hne hparse hinv
    rw [patch_channels, if_neg hne, hparse]
    simp only []
    rcases Nat.lt_trichotomy st.channels.length ms.length with hlt | heq | hgt
    · have hcond : st.channelCount < (ms.length : Int) := by
        rw [hinv]
        exact_mod_cast hlt
      rw [if_pos hcond]
      simp only []
      have hlen : (st.channels ++
          List.replicate ((ms.length : Int) - st.channelCount).toNat defaultChannel).length =
            ms.length := by
        rw [hinv]
        simp only [List.length_append, List.length_replicate]
        omega
      rw [applyChannelValues_of_le ms _ (le_of_eq hlen.symm),
        List.drop_eq_nil_of_le (le_of_eq hlen), List.append_nil]
      exact ⟨_, rfl, by simp, rfl, rfl⟩
    · have h1 : ¬ st.channelCount < (ms.length : Int) := by
        rw [hinv]
        omega
      have h2 : ¬ (ms.length : Int) < st.channelCount := by
        rw [hinv]
        omega
      rw [if_neg h1, if_neg h2]
      simp only []
      rw [applyChannelValues_of_le ms _ (le_of_eq heq.symm),
        List.drop_eq_nil_of_le (le_of_eq heq), List.append_nil]
      exact ⟨_, rfl, by simp, rfl, rfl⟩
    · have h1 : ¬ st.channelCount < (ms.length : Int) := by
        rw [hinv]
        omega
      have h2 : (ms.length : Int) < st.channelCount := by
        rw [hinv]
        exact_mod_cast hgt
      rw [if_neg h1, if_pos h2]
      have h3 : (st.channelCount - (ms.length : Int)).toNat ≤ st.channels.length := by
        rw [hinv]
        omega
      rw [if_pos h3]
      simp only []
      have hn : (st.channelCount - (ms.length : Int)).toNat =
          st.channels.length - ms.length := by
        rw [hinv]
        omega
      have hm : st.channels.length - (st.channels.length - ms.length) = ms.length := by
        omega
      rw [hn, hm]
      have htk : (st.channels.take ms.length).length = ms.length := by
        rw [List.length_take]
        omega
      rw [applyChannelValues_of_le ms _ (le_of_eq htk.symm),
        List.drop_eq_nil_of_le (le_of_eq htk), List.append_nil]
      exact ⟨_, rfl, by simp, rfl, rfl⟩
  · intro st
    rw [patch_channels, if_pos rfl]

/-- Witness for C2 at `metric_channels = "2,4"`. -/
theorem C2_channel_patch_witness :
    (("2,4" : String) ≠ "1,2,3" ∧
     pyParseIntList "2,4" = some [2, 4] ∧
     exampleChannelState.channelCount = (exampleChannelState.channels.length : Int)) ∧
    (∃ st' : ChannelState,
       patch_channels "2,4" exampleChannelState = some st' ∧
       st'.channels.length = ([2, 4] : List Int).length ∧
       st'.channels = ([2, 4] : List Int).map (fun v => Channel.mk v ("Channel" ++ toString v)) ∧
       st'.images_list = ([2, 4] : List Int).map (fun v => "Channel" ++ toString v)) :=
  ⟨⟨by decide, by decide, by decide⟩,
   C2_channel_patch.1 "2,4" exampleChannelState [2, 4] (by decide) (by decide) (by decide)⟩

theorem getD_map {α β : Type _} (f : α → β) (l : List α) (i : Nat) (d : α) (d' : β)
    (h : i < l.length) : (l.map f).getD i d' = f (l.getD i d) := by
  induction l generalizing i with
  | nil => simp at h
  | cons a t ih =>
    cases i with
    | zero => simp
    | succ i' => simpa using ih i' (by simpa using h)

theorem foldl_min_pos (l : List (List String)) (a : Nat) (ha : 0 < a)
    (h : ∀ r ∈ l, r ≠ []) :
    0 < l.foldl (fun acc row => min acc row.length) a := by
  induction l generalizing a with
  | nil => simpa using ha
  | cons r t ih =>
    simp only [List.foldl_cons]
    apply ih
    · have hr : r ≠ [] := h r (by simp)
      have := List.length_pos.mpr hr
      omega
    · intro x hx
      exact h x (by simp [hx])

/-- C5, as stated, is false on the code: a table with a data row that
has no cells (a blank CSV line) makes `zip` truncate to zero columns,
so `type_hints[0]` raises `IndexError` and no annotated file is
produced, although the table has at least one data row. -/
theorem C5_counterexample :
    annotate_rows [["id", "flag", "name"], []] = none := by decide

/-- C5 (amended): for every table with at least one data row, all of
whose first ten data rows have at least one cell, annotation succeeds:
the output is a new first row followed by all original rows (header and
every data row, beyond the ten sampled ones included) unchanged and in
order; the new row has one entry per zipped column (the sample
truncated to its shortest row), the entry at `i` being that column's
inferred tag, prefixed for the first column by the literal marker
`# header `; in particular the documented 3-column 2-row table yields
`["# header l", "b", "s"]` before the original rows. -/
theorem C5_annotation (header : List String) (data : List (List String))
    (hne : data ≠ []) (hcells : ∀ r ∈ data.take 10, r ≠ []) :
    ∃ hintRow : List String,
      annotate_rows (header :: data) = some (hintRow :: header :: data) ∧
      hintRow.length = (pyZip (data.take 10)).length ∧
      0 < hintRow.length ∧
      (∀ i, i < hintRow.length →
        hintRow.getD i "" =
          (if i = 0 then
            "# header " ++ String.mk [infer_column_type ((pyZip (data.take 10)).getD i [])]
           else String.mk [infer_column_type ((pyZip (data.take 10)).getD i [])])) ∧
      annotate_rows [["id", "flag", "name"], ["1", "true", "a"], ["2", "false", "b"]] =
        some [["# header l", "b", "s"], ["id", "flag", "name"],
          ["1", "true", "a"], ["2", "false", "b"]] := by
  obtain ⟨d0, data', rfl⟩ : ∃ d0 data', data = d0 :: data' := by
    cases data with
    | nil => exact absurd rfl hne
    | cons d0 data' => exact ⟨d0, data', rfl⟩
  have hw : 0 < minRowWidth ((d0 :: data').take 10) := by
    rw [List.take_succ_cons, minRowWidth]
    apply foldl_min_pos
    · have hd0 : d0 ≠ [] := hcells d0 (by rw [List.take_succ_cons]; exact List.mem_cons_self d0 _)
      exact List.length_pos.mpr hd0
    · intro x hx
      exact hcells x (by rw [List.take_succ_cons]; exact List.mem_cons_of_mem d0 hx)
  have hzlen : (pyZip ((d0 :: data').take 10)).length = minRowWidth ((d0 :: data').take 10) := by
    rw [List.take_succ_cons, pyZip]
    simp
  have hzpos : 0 < (pyZip ((d0 :: data').take 10)).length := by
    rw [hzlen]
    exact hw
  have hhne : (pyZip ((d0 :: data').take 10)).map
      (fun col => String.mk [infer_column_type col]) ≠ [] := by
    apply List.length_pos.mp
    simpa using hzpos
  obtain ⟨t0, ts, hhints⟩ := List.exists_cons_of_ne_nil hhne
  have hlen' : (pyZip ((d0 :: data').take 10)).length = ts.length + 1 := by
    have := congrArg List.length hhints
    simpa using this
  refine ⟨("# header " ++ t0) :: ts, ?_, ?_, ?_, ?_, by decide⟩
  · simp only [annotate_rows]
    rw [hhints]
  · rw [hlen']
    simp
  · simp
  · intro i hi
    cases i with
    | zero =>
      have h0 := getD_map (fun col => String.mk [infer_column_type col])
        (pyZip ((d0 :: data').take 10)) 0 [] "" hzpos
      rw [hhints, List.getD_cons_zero] at h0
      rw [List.getD_cons_zero, if_pos rfl, h0]
    | succ i' =>
      have hilt : i' + 1 < (pyZip ((d0 :: data').take 10)).length := by
        rw [hlen']
        simpa using hi
      have h1 := getD_map (fun col => String.mk [infer_column_type col])
        (pyZip ((d0 :: data').take 10)) (i' + 1) [] "" hilt
      rw [hhints, List.getD_cons_succ] at h1
      rw [List.getD_cons_succ, if_neg (Nat.succ_ne_zero i'), h1]

/-- Witness for C5 on the spec's 3-column, 2-data-row table. -/
theorem C5_annotation_witness :
    (([["1", "true", "a"], ["2", "false", "b"]] : List (List String)) ≠ [] ∧
     (∀ r ∈ ([["1", "true", "a"], ["2", "false", "b"]] : List (List String)).take 10,
       r ≠ [])) ∧
    (∃ hintRow : List String,
      annotate_rows (["id", "flag", "name"] :: [["1", "true", "a"], ["2", "false", "b"]]) =
        some (hintRow :: ["id", "flag", "name"] :: [["1", "true", "a"], ["2", "false", "b"]]) ∧
      hintRow.length =
        (pyZip (([["1", "true", "a"], ["2", "false", "b"]] : List (List String)).take 10)).length ∧
      0 < hintRow.length ∧
      (∀ i, i < hintRow.length →
        hintRow.getD i "" =
          (if i = 0 then
            "# header " ++ String.mk [infer_column_type
              ((pyZip (([["1", "true", "a"], ["2", "false", "b"]] :
                List (List String)).take 10)).getD i [])]
           else String.mk [infer_column_type
              ((pyZip (([["1", "true", "a"], ["2", "false", "b"]] :
                List (List String)).take 10)).getD i [])])) ∧
      annotate_rows [["id", "flag", "name"], ["1", "true", "a"], ["2", "false", "b"]] =
        some [["# header l", "b", "s"], ["id", "flag", "name"],
          ["1", "true", "a"], ["2", "false", "b"]]) :=
  ⟨⟨by decide, by decide⟩,
   C5_annotation ["id", "flag", "name"] [["1", "true", "a"], ["2", "false", "b"]]
     (by decide) (by decide)⟩

/-- C6, as stated, is false on the code: on a table with a header row
and zero data rows, `type_hints` is empty and `type_hints[0]` raises an
uncaught `IndexError` (modelled as `none`); no fallback string-tagging
happens. -/
theorem C6_counterexample :
    annotate_rows [["id", "flag", "name"]] = none := rfl

/-- C6 (amended): on a table with a header row and no data rows (and on
a completely empty table, where already skipping the header raises),
the annotator does not complete: it fails with an uncaught exception
before writing anything, and no type-tag row is produced. -/
theorem C6_no_data_rows (header : List String) :
    annotate_rows [header] = none ∧ annotate_rows ([] : List (List String)) = none :=
  ⟨rfl, rfl⟩

theorem fsLookup_set_self (fs : FileSys) (p : String) (c : List (List String)) :
    fsLookup (fsSet fs p c) p = some c := by
  simp [fsSet, fsLookup]

theorem fsLookup_set_ne (fs : FileSys) (p q : String) (c : List (List String))
    (h : p ≠ q) : fsLookup (fsSet fs p c) q = fsLookup fs q := by
  simp [fsSet, fsLookup, h]

theorem fsLookup_remove_ne (fs : FileSys) (p q : String) (h : p ≠ q) :
    fsLookup (fsRemove fs p) q = fsLookup fs q := by
  induction fs with
  | nil => rfl
  | cons e rest ih =>
    obtain ⟨a, c⟩ := e
    simp only [fsRemove] at ih ⊢
    rw [List.filter_cons]
    by_cases hap : a = p
    · have hq : ¬a = q := by
        rw [hap]
        exact h
      simp [hap, fsLookup, hq, ih, h]
    · simp [hap, fsLookup, ih]

theorem fsLookup_applyOp_ne (fs : FileSys) (op : FsOp) (q : String)
    (h : q ∉ opTargets op) : fsLookup (applyOp fs op) q = fsLookup fs q := by
  cases op with
  | create p =>
    simp only [opTargets, List.mem_singleton] at h
    exact fsLookup_set_ne _ _ _ _ (fun hc => h hc.symm)
  | appendRow p r =>
    simp only [opTargets, List.mem_singleton] at h
    simp only [applyOp]
    cases hl : fsLookup fs p with
    | none => rfl
    | some c => exact fsLookup_set_ne _ _ _ _ (fun hc => h hc.symm)
  | replaceFile src dst =>
    simp only [opTargets, List.mem_cons, List.not_mem_nil, or_false] at h
    push_neg at h
    obtain ⟨h1, h2⟩ := h
    simp only [applyOp]
    cases hl : fsLookup fs src with
    | none => rfl
    | some c =>
      rw [fsLookup_set_ne _ _ _ _ (Ne.symm h2), fsLookup_remove_ne _ _ _ (Ne.symm h1)]

theorem fsLookup_applyOps_ne (fs : FileSys) (ops : List FsOp) (q : String)
    (h : ∀ op ∈ ops, q ∉ opTargets op) :
    fsLookup (applyOps fs ops) q = fsLookup fs q := by
  induction ops generalizing fs with
  | nil => rfl
  | cons op rest ih =>
    simp only [applyOps, List.foldl_cons]
    have hrest := ih (applyOp fs op) (fun o ho => h o (List.mem_cons_of_mem _ ho))
    simp only [applyOps] at hrest
    rw [hrest, fsLookup_applyOp_ne fs op q (h op (List.mem_cons_self _ _))]

theorem applyOps_appendRows (p : String) (rows : List (List String)) (fs : FileSys)
    (acc : List (List String)) (hacc : fsLookup fs p = some acc) :
    fsLookup (applyOps fs (rows.map (FsOp.appendRow p))) p = some (acc ++ rows) := by
  induction rows generalizing fs acc with
  | nil => simpa using hacc
  | cons r rest ih =>
    simp only [List.map_cons, applyOps, List.foldl_cons]
    have hstep : applyOp fs (FsOp.appendRow p r) = fsSet fs p (acc ++ [r]) := by
      simp only [applyOp]
      rw [hacc]
    have hrec := ih (fsSet fs p (acc ++ [r])) (acc ++ [r]) (fsLookup_set_self _ _ _)
    simp only [applyOps] at hrec
    rw [hstep, hrec]
    simp

/-- C8: rewriting a result file is atomic with respect to the original
name: every strict prefix of the rewrite's operations (a failure
partway through) leaves the content bound to the original name exactly
as it was, and only the final, atomic `os.replace` installs the
complete new content. -/
theorem C8_atomic_rewrite (path : String) (newRows : List (List String)) (fs : FileSys) :
    (∀ k, k < (rewriteOps path newRows).length →
       fsLookup (applyOps fs ((rewriteOps path newRows).take k)) path = fsLookup fs path) ∧
    fsLookup (applyOps fs (rewriteOps path newRows)) path = some newRows := by
  have htemp : path ++ ".temp" ≠ path := by
    intro hc
    have hlen := congrArg String.length hc
    rw [String.length_append] at hlen
    have h5 : (".temp" : String).length = 5 := rfl
    omega
  have hsplit : rewriteOps path newRows =
      (FsOp.create (path ++ ".temp") :: newRows.map (FsOp.appendRow (path ++ ".temp"))) ++
        [FsOp.replaceFile (path ++ ".temp") path] := by
    simp [rewriteOps]
  constructor
  · intro k hk
    have hlen : (rewriteOps path newRows).length = newRows.length + 2 := by
      simp [rewriteOps]
    have htake : (rewriteOps path newRows).take k =
        (FsOp.create (path ++ ".temp") ::
          newRows.map (FsOp.appendRow (path ++ ".temp"))).take k := by
      rw [hsplit, List.take_append_of_le_length]
      simp only [List.length_cons, List.length_map]
      omega
    rw [htake]
    apply fsLookup_applyOps_ne
    intro op hop
    have hop' : op ∈ FsOp.create (path ++ ".temp") ::
        newRows.map (FsOp.appendRow (path ++ ".temp")) := List.mem_of_mem_take hop
    rcases List.mem_cons.mp hop' with h1 | h2
    · subst h1
      simp only [opTargets, List.mem_singleton]
      exact Ne.symm htemp
    · obtain ⟨r, hr, rfl⟩ := List.mem_map.mp h2
      simp only [opTargets, List.mem_singleton]
      exact Ne.symm htemp
  · rw [hsplit]
    rw [show applyOps fs
        ((FsOp.create (path ++ ".temp") :: newRows.map (FsOp.appendRow (path ++ ".temp"))) ++
          [FsOp.replaceFile (path ++ ".temp") path]) =
        applyOp (applyOps fs
          (FsOp.create (path ++ ".temp") :: newRows.map (FsOp.appendRow (path ++ ".temp"))))
          (FsOp.replaceFile (path ++ ".temp") path) from by
      simp [applyOps, List.foldl_append]]
    have hlook : fsLookup (applyOps fs
        (FsOp.create (path ++ ".temp") :: newRows.map (FsOp.appendRow (path ++ ".temp"))))
        (path ++ ".temp") = some newRows := by
      simp only [applyOps, List.foldl_cons]
      have hacc : fsLookup (applyOp fs (FsOp.create (path ++ ".temp"))) (path ++ ".temp") =
          some [] := fsLookup_set_self _ _ _
      have := applyOps_appendRows (path ++ ".temp") newRows
        (applyOp fs (FsOp.create (path ++ ".temp"))) [] hacc
      simpa [applyOps] using this
    simp only [applyOp]
    rw [hlook]
    exact fsLookup_set_self _ _ _

/-- Witness for C8: after one operation (a strict prefix) the original
name still holds the old content; after all operations it holds the new
content. -/
theorem C8_atomic_rewrite_witness :
    (1 < (rewriteOps "out.csv" exampleNewRows).length ∧
     fsLookup (applyOps exampleFS ((rewriteOps "out.csv" exampleNewRows).take 1)) "out.csv" =
       fsLookup exampleFS "out.csv") ∧
    fsLookup (applyOps exampleFS (rewriteOps "out.csv" exampleNewRows)) "out.csv" =
      some exampleNewRows :=
  ⟨⟨by decide, (C8_atomic_rewrite "out.csv" exampleNewRows exampleFS).1 1 (by decide)⟩,
   (C8_atomic_rewrite "out.csv" exampleNewRows exampleFS).2⟩

/-- C9: when the first timestamp directory collides and the retry path
is fresh, the creation is retried exactly once, with the second
timestamp in the new name (nested inside the colliding directory, whose
existence makes the parent check succeed), the retry succeeds, and the
colliding directory — like every other existing directory — is still
present afterwards. -/
theorem C9_tmp_collision (dirs : List (List String)) (base : List String)
    (ts1 ts2 : Nat)
    (hcoll : base ++ [toString ts1] ∈ dirs)
    (hfresh : base ++ [toString ts1] ++ [toString ts2] ∉ dirs) :
    setup_tmp_path dirs base ts1 ts2 =
      .ok ((base ++ [toString ts1] ++ [toString ts2]) :: dirs,
        base ++ [toString ts1] ++ [toString ts2]) ∧
    base ++ [toString ts1] ∈ ((base ++ [toString ts1] ++ [toString ts2]) :: dirs) ∧
    (∀ d ∈ dirs, d ∈ (base ++ [toString ts1] ++ [toString ts2]) :: dirs) := by
  have h1 : mkdirFs dirs (base ++ [toString ts1]) = .error .fileExists := by
    rw [mkdirFs, if_pos hcoll]
  have hpar : (base ++ [toString ts1] ++ [toString ts2]).dropLast =
      base ++ [toString ts1] := by
    simp
  have h2 : mkdirFs dirs (base ++ [toString ts1] ++ [toString ts2]) =
      .ok ((base ++ [toString ts1] ++ [toString ts2]) :: dirs) := by
    rw [mkdirFs, if_neg hfresh, hpar, if_pos hcoll]
  refine ⟨?_, List.mem_cons_of_mem _ hcoll, fun d hd => List.mem_cons_of_mem _ hd⟩
  have h2' : mkdirFs dirs (base ++ [toString ts1, toString ts2]) =
      .ok ((base ++ [toString ts1, toString ts2]) :: dirs) := by
    simpa using h2
  simp [setup_tmp_path, h1, h2']

/-- Witness for C9 at a concrete collision. -/
theorem C9_tmp_collision_witness :
    (["tmp"] ++ [toString 3] ∈ ([["tmp"], ["tmp", "3"]] : List (List String)) ∧
     ["tmp"] ++ [toString 3] ++ [toString 35] ∉
       ([["tmp"], ["tmp", "3"]] : List (List String))) ∧
    (setup_tmp_path [["tmp"], ["tmp", "3"]] ["tmp"] 3 35 =
       .ok ((["tmp"] ++ [toString 3] ++ [toString 35]) :: [["tmp"], ["tmp", "3"]],
         ["tmp"] ++ [toString 3] ++ [toString 35]) ∧
     ["tmp"] ++ [toString 3] ∈
       (["tmp"] ++ [toString 3] ++ [toString 35]) :: [["tmp"], ["tmp", "3"]] ∧
     (∀ d ∈ ([["tmp"], ["tmp", "3"]] : List (List String)),
       d ∈ (["tmp"] ++ [toString 3] ++ [toString 35]) :: [["tmp"], ["tmp", "3"]])) :=
  ⟨⟨by decide, by decide⟩,
   C9_tmp_collision [["tmp"], ["tmp", "3"]] ["tmp"] 3 35 (by decide) (by decide)⟩

/-- C10, as stated, is false on the code: no `progress=90` update
exists anywhere in `main`; the successful trace is `0, 25, 100`. -/
theorem C10_counterexample :
    (main_progress 0 exampleTables).1 = [0, 25, 100] ∧
    90 ∉ (main_progress 0 exampleTables).1 ∧
    90 ∉ (main_progress 1 exampleTables).1 := by decide

/-- C10 (amended): the progress values emitted are exactly `0` at
initialisation, `25` before launching the engine, then `50` (followed
by the raised error) on engine failure, or `100` on successful
completion of the run including the annotation loop; no `90` is ever
emitted. -/
theorem C10_progress_trace (returncode : Int) (tables : List (List (List String))) :
    (returncode ≠ 0 → main_progress returncode tables = ([0, 25, 50], true)) ∧
    (returncode = 0 → (∀ t ∈ tables, (annotate_rows t).isSome = true) →
      main_progress returncode tables = ([0, 25, 100], false)) ∧
    90 ∉ (main_progress returncode tables).1 := by
  refine ⟨?_, ?_, ?_⟩
  · intro h
    simp [main_progress, h]
  · intro h hall
    simp [main_progress, h, List.all_eq_true.mpr hall]
  · rw [main_progress]
    split_ifs <;> decide

/-- Witness for C10 at return codes `1` and `0`. -/
theorem C10_progress_trace_witness :
    ((1 : Int) ≠ 0 ∧ main_progress 1 exampleTables = ([0, 25, 50], true)) ∧
    ((0 : Int) = 0 ∧ (∀ t ∈ exampleTables, (annotate_rows t).isSome = true) ∧
     main_progress 0 exampleTables = ([0, 25, 100], false)) :=
  ⟨⟨by decide, (C10_progress_trace 1 exampleTables).1 (by decide)⟩,
   ⟨rfl, by decide, (C10_progress_trace 0 exampleTables).2.1 rfl (by decide)⟩⟩

end Wrapper
